import Mathlib

/-!
Verification of the agentic-finance trading core.

Shallow embedding of the repository's trading engine in Lean 4:
signal aggregation (src/backend/services/risk_manager.py), portfolio state
and trade execution (src/backend/models/portfolio_manager.py), the backtest
date loop and performance metrics (src/simulator/trading_simulator.py),
position sizing (src/portfolio_manager/portfolio_manager.py), order
execution (src/execution/execution.py), and portfolio risk estimation
(src/risk_manager/risk_manager.py).  Python floats are modelled as exact
rationals; values that the source derives through square roots or real
powers are modelled in the reals.
-/

/-- Trading actions accepted by the signal pipeline. -/
inductive TradeAction
  | BUY
  | SELL
  | HOLD
deriving DecidableEq, Repr

/-- A raw trading signal as consumed by
`RiskManager.aggregate_signals` in src/backend/services/risk_manager.py
(the dict keys used there are `ticker`, `action`, `confidence`, `agent`). -/
structure TradingSignal where
  ticker : String
  action : TradeAction
  confidence : ℚ
  agent : String
deriving DecidableEq, Repr

/-- The consensus dict returned by `aggregate_signals`.  The `rationale`
string of the source is descriptive text and is not modelled.  On empty
input the source dict carries no ticker key, modelled as `none`. -/
structure ConsensusSignal where
  action : TradeAction
  confidence : ℚ
  ticker : Option String
  agents : List String
deriving DecidableEq, Repr

/-- Accumulated confidence of one action bucket: the source loops over the
signals adding each `confidence` into `action_confidences[action]`. -/
def actionConfidence (signals : List TradingSignal) (a : TradeAction) : ℚ :=
  ((signals.filter (fun s => decide (s.action = a))).map (fun s => s.confidence)).sum

/-- `max(action_confidences, key=action_confidences.get)` over the dict
whose insertion order is BUY, SELL, HOLD: Python's `max` keeps the earliest
key when values tie, replacing the current best only on a strict increase. -/
def consensusAction (b s h : ℚ) : TradeAction :=
  if s > b then (if h > s then .HOLD else .SELL)
  else (if h > b then .HOLD else .BUY)

/-- `RiskManager.aggregate_signals` of src/backend/services/risk_manager.py:
empty input returns HOLD with confidence 0; otherwise the consensus action
is the first-maximal bucket and the confidence is that bucket's accumulated
value divided by the number of signals. -/
def aggregate_signals (signals : List TradingSignal) : ConsensusSignal :=
  match signals with
  | [] => { action := .HOLD, confidence := 0, ticker := none, agents := [] }
  | s0 :: _ =>
    let b := actionConfidence signals .BUY
    let se := actionConfidence signals .SELL
    let ho := actionConfidence signals .HOLD
    let act := consensusAction b se ho
    let bucket := match act with
      | .BUY => b
      | .SELL => se
      | .HOLD => ho
    { action := act
      confidence := bucket / (signals.length : ℚ)
      ticker := some s0.ticker
      agents := signals.map (fun s => s.agent) }

/-- A position entry of `PortfolioManager.positions` in
src/backend/models/portfolio_manager.py: a dict with keys `quantity`,
`avg_price`, `last_price`. -/
structure Position where
  quantity : ℚ
  avg_price : ℚ
  last_price : ℚ
deriving DecidableEq, Repr

/-- The mutable state of `PortfolioManager` (backend/models): cash and the
positions dict, modelled as an insertion-ordered association list.  The
`transaction_history` list only accumulates returned trade results and is
not part of the state the claims quantify over. -/
structure Portfolio where
  cash : ℚ
  positions : List (String × Position)
deriving DecidableEq, Repr

/-- Python dict assignment: replace in place when the key exists, else
append at the end. -/
def setPos (ps : List (String × Position)) (t : String) (c : Position) :
    List (String × Position) :=
  if ps.any (fun p => decide (p.1 = t)) then
    ps.map (fun p => if p.1 = t then (t, c) else p)
  else ps ++ [(t, c)]

/-- Python `del` on the positions dict. -/
def erasePos (ps : List (String × Position)) (t : String) :
    List (String × Position) :=
  ps.filter (fun p => decide (¬ p.1 = t))

/-- Dict membership plus lookup, `self.positions[ticker]`. -/
def lookupPos (ps : List (String × Position)) (t : String) : Option Position :=
  (ps.find? (fun p => decide (p.1 = t))).map (fun p => p.2)

/-- `PortfolioManager.get_portfolio_value`: cash plus the sum over the
positions of `quantity * last_price`. -/
def get_portfolio_value (p : Portfolio) : ℚ :=
  p.cash + ((p.positions.map (fun q => q.2.quantity * q.2.last_price)).sum)

/-- The result dict of `PortfolioManager.execute_trade`.  The timestamp and
rationale strings are not modelled. -/
structure TradeResult where
  ticker : String
  action : TradeAction
  quantity : ℚ
  price : ℚ
  value : ℚ
  status : String
  reason : Option String
deriving DecidableEq, Repr

/-- `PortfolioManager.execute_trade` of
src/backend/models/portfolio_manager.py.  BUY requires
`cash >= quantity * price`, else the result is FAILED with reason
"Insufficient funds" and the state is untouched; on success cash drops by
the trade value and the position is created or merged with
weighted-average cost.  SELL requires an existing position with enough
shares, else FAILED with "Insufficient shares"; on success cash grows by
the trade value, the position shrinks and is deleted at zero.  Any other
action leaves the initial FAILED result and the state unchanged. -/
def execute_trade (p : Portfolio) (ticker : String) (action : TradeAction)
    (quantity price : ℚ) : TradeResult × Portfolio :=
  let trade_value := quantity * price
  let base : TradeResult :=
    { ticker := ticker, action := action, quantity := quantity, price := price
      value := trade_value, status := "FAILED", reason := none }
  match action with
  | .BUY =>
    if p.cash ≥ trade_value then
      let newPositions :=
        match lookupPos p.positions ticker with
        | some position =>
          let total_quantity := position.quantity + quantity
          let total_value := position.quantity * position.avg_price + trade_value
          setPos p.positions ticker
            { quantity := total_quantity
              avg_price := total_value / total_quantity
              last_price := price }
        | none =>
          setPos p.positions ticker
            { quantity := quantity, avg_price := price, last_price := price }
      ({ base with status := "SUCCESS" },
       { cash := p.cash - trade_value, positions := newPositions })
    else
      ({ base with reason := some "Insufficient funds" }, p)
  | .SELL =>
    match lookupPos p.positions ticker with
    | some position =>
      if position.quantity ≥ quantity then
        let remaining := position.quantity - quantity
        let newPositions :=
          if remaining = 0 then erasePos p.positions ticker
          else setPos p.positions ticker
            { quantity := remaining
              avg_price := position.avg_price
              last_price := price }
        ({ base with status := "SUCCESS" },
         { cash := p.cash + trade_value, positions := newPositions })
      else
        ({ base with reason := some "Insufficient shares" }, p)
    | none => ({ base with reason := some "Insufficient shares" }, p)
  | .HOLD => (base, p)

/-- The value-copied part of the dict returned by
`PortfolioManager.get_portfolio_state` (backend/models).  `cash` and
`total_value` are numbers and are copied into the snapshot; the dict's
`positions` entry is the live `self.positions` object itself (no copy is
taken), so a snapshot's positions are read from whatever the portfolio's
positions are at read time.  The timestamp string is not modelled. -/
structure SnapshotMeta where
  cash : ℚ
  total_value : ℚ
deriving DecidableEq, Repr

/-- `PortfolioManager.get_portfolio_state` (backend/models): the copied
numeric fields of the snapshot dict. -/
def get_portfolio_state (p : Portfolio) : SnapshotMeta :=
  { cash := p.cash, total_value := get_portfolio_value p }

/-- Position value sum read from a portfolio, used to evaluate a recorded
snapshot's aliased `positions` entry at a later point in time. -/
def positionsValue (p : Portfolio) : ℚ :=
  ((p.positions.map (fun q => q.2.quantity * q.2.last_price)).sum)

/-- Lines 191-192 of src/simulator/trading_simulator.py: before trading a
ticker, the day's market price is written into the held position's
`last_price` (a no-op when the ticker is not held). -/
def update_last_price (p : Portfolio) (t : String) (price : ℚ) : Portfolio :=
  if (p.positions.any (fun q => decide (q.1 = t))) then
    { p with positions :=
        p.positions.map (fun q =>
          if q.1 = t then (q.1, { q.2 with last_price := price }) else q) }
  else p

/-- `datetime.weekday()` with dates counted as days since a Monday:
Monday = 0, ..., Saturday = 5, Sunday = 6. -/
def weekday (d : ℕ) : ℕ := d % 7

/-- Number of weekend days remaining from `d` before the next weekday;
termination measure of the weekend-skip loop. -/
def weekendGap (d : ℕ) : ℕ :=
  if d % 7 = 5 then 2 else if d % 7 = 6 then 1 else 0

/-- The weekend-skip loop at the end of `run_simulation_step`:
`while current_date.weekday() > 4: current_date += timedelta(days=1)`. -/
def skipWeekend (d : ℕ) : ℕ :=
  if weekday d > 4 then skipWeekend (d + 1) else d
termination_by weekendGap d
decreasing_by
  simp only [weekday] at *
  simp only [weekendGap]
  repeat' split
  all_goals omega

/-- The list of simulated dates recorded by `run_complete_simulation`:
`while current_date <= end_date`, each step records the current date and
then advances by one day plus the weekend skip
(src/simulator/trading_simulator.py lines 224-246). -/
def simDates (endD : ℕ) (d : ℕ) : List ℕ :=
  if d ≤ endD then d :: simDates endD (skipWeekend (d + 1)) else []
termination_by endD + 1 - d
decreasing_by
  have unf : ∀ e : ℕ, skipWeekend e = if e % 7 > 4 then skipWeekend (e + 1) else e := by
    intro e
    rw [skipWeekend.eq_def]
    rfl
  have h : d + 1 ≤ skipWeekend (d + 1) := by
    generalize d + 1 = e
    by_cases h5 : e % 7 = 5
    · rw [unf e, if_pos (by omega), unf (e + 1), if_pos (by omega),
        unf (e + 2), if_neg (by omega)]
      omega
    · by_cases h6 : e % 7 = 6
      · rw [unf e, if_pos (by omega), unf (e + 1), if_neg (by omega)]
        omega
      · rw [unf e, if_neg (by omega)]
  omega

/-- Order/action kinds handled by the portfolio-manager and execution
subsystems (src/portfolio_manager, src/execution). -/
inductive ActionType
  | BUY
  | SELL
  | SHORT
  | COVER
  | HOLD
deriving DecidableEq, Repr

/-- A position entry of the second `PortfolioManager`
(src/portfolio_manager/portfolio_manager.py): a dict with keys
`quantity` (an int, negative for shorts) and `value`. -/
structure PMPosition where
  quantity : ℤ
  value : ℚ
deriving DecidableEq, Repr

/-- State of the second `PortfolioManager`: this class hardcodes its
starting cash to 1,000,000 dollars (`self.cash = 1000000.0`); it exposes
no initial-capital parameter. -/
structure PMState where
  cash : ℚ
  positions : List (String × PMPosition)
deriving DecidableEq, Repr

/-- The hardcoded fresh state of the second `PortfolioManager`. -/
def pmInit : PMState := { cash := 1000000, positions := [] }

/-- Dict assignment on the second manager's positions. -/
def setPMPos (ps : List (String × PMPosition)) (t : String) (c : PMPosition) :
    List (String × PMPosition) :=
  if ps.any (fun p => decide (p.1 = t)) then
    ps.map (fun p => if p.1 = t then (t, c) else p)
  else ps ++ [(t, c)]

/-- Dict lookup on the second manager's positions. -/
def lookupPMPos (ps : List (String × PMPosition)) (t : String) :
    Option PMPosition :=
  (ps.find? (fun p => decide (p.1 = t))).map (fun p => p.2)

/-- Dict deletion on the second manager's positions. -/
def erasePMPos (ps : List (String × PMPosition)) (t : String) :
    List (String × PMPosition) :=
  ps.filter (fun p => decide (¬ p.1 = t))

/-- `PortfolioManager._determine_action_for_symbol`
(src/portfolio_manager/portfolio_manager.py lines 81-154), returning the
action type and the size fraction (the human-readable reason string is not
modelled).  A new BUY position is sized `0.02 + confidence * 0.08`; an
existing one targets `min(0.05 + confidence*0.15, 0.25)` and only acts on
a delta above 0.02; a SELL without a position opens a SHORT only when
confidence is strictly above 0.7. -/
def determine_action_for_symbol (positions : List (String × PMPosition))
    (max_positions : ℕ) (symbol : String) (action : TradeAction)
    (confidence : ℚ) (portfolio_value : ℚ) : ActionType × ℚ :=
  let has_position := (lookupPMPos positions symbol).isSome
  match action with
  | .BUY =>
    match lookupPMPos positions symbol with
    | some pos =>
      let current_size := pos.value / portfolio_value
      let target_size := min (5/100 + confidence * (15/100)) (25/100)
      if target_size > current_size + 2/100 then
        (.BUY, target_size - current_size)
      else
        (.HOLD, 0)
    | none =>
      if positions.length < max_positions then
        (.BUY, 2/100 + confidence * (8/100))
      else
        (.HOLD, 0)
  | .SELL =>
    if has_position then
      (.SELL, 1)
    else if confidence > 7/10 then
      (.SHORT, 2/100 + confidence * (5/100))
    else
      (.HOLD, 0)
  | .HOLD => (.HOLD, 0)

/-- Python `int(q)`: truncation toward zero. -/
def pyInt (q : ℚ) : ℤ :=
  if 0 ≤ q then ⌊q⌋ else -⌊-q⌋

/-- `ExecutionEngine._calculate_quantity` (src/execution/execution.py lines
133-153): the engine hardcodes `portfolio_value = 1000000.0` ("assume a
total portfolio value of $1M"), computes `target_value = portfolio_value *
size`, truncates `target_value / price` to an int and floors the result at
one share. -/
def calculate_quantity (size : ℚ) (price : ℚ) : ℤ :=
  max (pyInt ((1000000 * size) / price)) 1

/-- `PortfolioManager.update_position`
(src/portfolio_manager/portfolio_manager.py lines 197-272): applies an
executed order to the second manager's state.  `value = |quantity| *
price`; BUY adds quantity and value and debits cash; SELL subtracts
quantity (deleting at `<= 0`, otherwise re-marking value at the trade
price) and credits cash; SHORT subtracts quantity and credits cash; COVER
adds quantity to a negative position and debits cash. -/
def update_position (st : PMState) (symbol : String) (quantity : ℤ)
    (price : ℚ) (action : ActionType) : PMState :=
  let value := (|quantity| : ℤ) * price
  match action with
  | .BUY =>
    let newPositions :=
      match lookupPMPos st.positions symbol with
      | some pos =>
        setPMPos st.positions symbol
          { quantity := pos.quantity + quantity, value := pos.value + value }
      | none =>
        setPMPos st.positions symbol { quantity := quantity, value := value }
    { cash := st.cash - value, positions := newPositions }
  | .SELL =>
    match lookupPMPos st.positions symbol with
    | some pos =>
      let remaining := pos.quantity - quantity
      let newPositions :=
        if remaining ≤ 0 then erasePMPos st.positions symbol
        else setPMPos st.positions symbol
          { quantity := remaining, value := (remaining : ℚ) * price }
      { cash := st.cash + value, positions := newPositions }
    | none => st
  | .SHORT =>
    let newPositions :=
      match lookupPMPos st.positions symbol with
      | some pos =>
        setPMPos st.positions symbol
          { quantity := pos.quantity - quantity, value := pos.value + value }
      | none =>
        setPMPos st.positions symbol { quantity := -quantity, value := value }
    { cash := st.cash + value, positions := newPositions }
  | .COVER =>
    match lookupPMPos st.positions symbol with
    | some pos =>
      if pos.quantity < 0 then
        let after := pos.quantity + quantity
        let newPositions :=
          if 0 ≤ after then erasePMPos st.positions symbol
          else setPMPos st.positions symbol
            { quantity := after, value := (|after| : ℤ) * price }
        { cash := st.cash - value, positions := newPositions }
      else st
    | none => st
  | .HOLD => st

/-- `np.diff(h) / h[:-1]`: the pairwise daily returns used by
`RiskManager._calculate_portfolio_risk` (src/risk_manager/risk_manager.py
line 180). -/
def daily_returns : List ℚ → List ℚ
  | a :: b :: rest => (b - a) / a :: daily_returns (b :: rest)
  | _ => []

/-- Insert a rational into a sorted list, keeping it sorted. -/
def insertSorted (x : ℚ) : List ℚ → List ℚ
  | [] => [x]
  | y :: ys => if x ≤ y then x :: y :: ys else y :: insertSorted x ys

/-- Ascending insertion sort, modelling numpy's internal sort (any sorting
algorithm yields the same order statistics). -/
def sortRats : List ℚ → List ℚ
  | [] => []
  | x :: xs => insertSorted x (sortRats xs)

/-- `np.percentile(xs, p)` with numpy's default linear interpolation: sort
ascending, take `rank = p/100 * (n-1)`, and interpolate between the two
neighbouring order statistics. -/
def percentile (xs : List ℚ) (p : ℚ) : ℚ :=
  let sorted := sortRats xs
  let n := xs.length
  let rank : ℚ := p * ((n : ℚ) - 1) / 100
  let i := (⌊rank⌋).toNat
  let lo := sorted.getD i 0
  let hi := sorted.getD (i + 1) lo
  lo + (rank - (⌊rank⌋ : ℚ)) * (hi - lo)

/-- `RiskManager._calculate_portfolio_risk`
(src/risk_manager/risk_manager.py lines 165-188): with fewer than 30
recorded portfolio values the fixed default 0.1 is returned; otherwise
`var = -np.percentile(returns, 100*(1 - var_confidence))` and the result
is `min(var * 10, 1.0)` — scaled by ten and clamped only from above. -/
def calculate_portfolio_risk (portfolio_history : List ℚ)
    (var_confidence : ℚ) : ℚ :=
  if portfolio_history.length < 30 then 1/10
  else
    let returns := daily_returns portfolio_history
    let var := -(percentile returns (100 * (1 - var_confidence)))
    min (var * 10) 1

/-- Mean of a list of rationals (`np.mean`); 0 on the empty list. -/
def listMean (l : List ℚ) : ℚ := l.sum / (l.length : ℚ)

/-- Population variance (`np.std` squared, ddof = 0); 0 on the empty
list. -/
def popVar (l : List ℚ) : ℚ :=
  ((l.map (fun x => (x - listMean l) ^ 2)).sum) / (l.length : ℚ)

/-- `np.std` over exact inputs: the square root of the population
variance. -/
noncomputable def npStd (l : List ℚ) : ℝ := Real.sqrt ((popVar l : ℚ) : ℝ)

/-- Mean of a list of reals; 0 on the empty list. -/
noncomputable def listMeanR (l : List ℝ) : ℝ := l.sum / (l.length : ℝ)

/-- Population variance of a list of reals; 0 on the empty list. -/
noncomputable def popVarR (l : List ℝ) : ℝ :=
  ((l.map (fun x => (x - listMeanR l) ^ 2)).sum) / (l.length : ℝ)

/-- `np.std` of a list of reals. -/
noncomputable def npStdR (l : List ℝ) : ℝ := Real.sqrt (popVarR l)

/-- Python `round(x, 2)` on an exact rational: round half to even at the
second decimal. -/
def pyRound2 (q : ℚ) : ℚ :=
  let y := q * 100
  let f := ⌊y⌋
  let r := y - (f : ℚ)
  let n : ℤ :=
    if r < 1/2 then f
    else if 1/2 < r then f + 1
    else if Even f then f else f + 1
  (n : ℚ) / 100

/-- Python `round(x, 2)` on a real value. -/
noncomputable def pyRound2R (x : ℝ) : ℝ :=
  let y := x * 100
  let f := ⌊y⌋
  let r := y - (f : ℝ)
  let n : ℤ :=
    if r < 1/2 then f
    else if 1/2 < r then f + 1
    else if Even f then f else f + 1
  (n : ℝ) / 100

/-- The projection of one entry of `simulation_history` that
`TradingSimulator.get_performance_metrics` reads: the recorded
`portfolio_before["total_value"]`, `portfolio_after["total_value"]`, and
the `status` strings of the day's recorded trades. -/
structure SimStep where
  beforeTotal : ℚ
  afterTotal : ℚ
  tradeStatuses : List String
deriving DecidableEq, Repr

/-- `initial_value = simulation_history[0]["portfolio_before"]["total_value"]`. -/
def sim_initial_value (history : List SimStep) : ℚ :=
  (history.headD ⟨0, 0, []⟩).beforeTotal

/-- `final_value = simulation_history[-1]["portfolio_after"]["total_value"]`. -/
def sim_final_value (history : List SimStep) : ℚ :=
  (history.getLastD ⟨0, 0, []⟩).afterTotal

/-- `daily_returns` of `get_performance_metrics` (lines 270-275): pairwise
ratios `daily_values[i] / daily_values[i-1] - 1` over the per-day
`portfolio_after` totals. -/
def sim_daily_returns_of : List ℚ → List ℚ
  | a :: b :: rest => (b / a - 1) :: sim_daily_returns_of (b :: rest)
  | _ => []

/-- The daily-return series of a recorded history. -/
def sim_daily_returns (history : List SimStep) : List ℚ :=
  sim_daily_returns_of (history.map (fun s => s.afterTotal))

/-- `percentage_return = round((final_value / initial_value - 1) * 100, 2)`
(lines 267 and 304). -/
def sim_percentage_return (history : List SimStep) : ℚ :=
  pyRound2 ((sim_final_value history / sim_initial_value history - 1) * 100)

/-- `absolute_return = round(final_value - initial_value, 2)`. -/
def sim_absolute_return (history : List SimStep) : ℚ :=
  pyRound2 (sim_final_value history - sim_initial_value history)

/-- `total_trades`: the number of recorded trade results across the
history (line 282). -/
def sim_total_trades (history : List SimStep) : ℕ :=
  ((history.map (fun s => s.tradeStatuses.length)).sum)

/-- `successful_trades`: recorded trades whose `status` is "SUCCESS"
(lines 283-286). -/
def sim_successful_trades (history : List SimStep) : ℕ :=
  ((history.map (fun s =>
    (s.tradeStatuses.filter (fun t => decide (t = "SUCCESS"))).length)).sum)

/-- `success_rate = round(successful / total * 100 if total else 0, 2)`
(line 313). -/
def sim_success_rate (history : List SimStep) : ℚ :=
  pyRound2 (if sim_total_trades history ≠ 0 then
    ((sim_successful_trades history : ℚ) / (sim_total_trades history : ℚ)) * 100
  else 0)

/-- `volatility = round(np.std(daily_returns) * 100 if daily_returns else
0, 2)` (lines 279 and 307). -/
noncomputable def sim_volatility (history : List SimStep) : ℝ :=
  pyRound2R (if sim_daily_returns history ≠ [] then
    npStd (sim_daily_returns history) * 100
  else 0)

/-- `daily_risk_free = (1 + 0.02) ** (1/252) - 1` (line 290): the 252nd
root of 1.02, minus one. -/
noncomputable def sim_daily_risk_free : ℝ :=
  ((1 + 2/100 : ℝ) ^ ((1 : ℝ) / 252) : ℝ) - 1

/-- `excess_returns = [r - daily_risk_free for r in daily_returns]`. -/
noncomputable def sim_excess_returns (history : List SimStep) : List ℝ :=
  (sim_daily_returns history).map (fun r => (r : ℝ) - sim_daily_risk_free)

/-- `sharpe_ratio = round((np.mean(excess) / np.std(excess)) * np.sqrt(252)
if excess_returns and np.std(excess_returns) > 0 else 0, 2)` (lines
292 and 308). -/
noncomputable def sim_sharpe_ratio (history : List SimStep) : ℝ :=
  pyRound2R (if sim_excess_returns history ≠ [] ∧
      npStdR (sim_excess_returns history) > 0 then
    (listMeanR (sim_excess_returns history) /
      npStdR (sim_excess_returns history)) * Real.sqrt 252
  else 0)

/-- The status dict returned by `ExecutionEngine._place_order`
(src/execution/execution.py lines 155-191).  The function draws
`random.random()` from the ambient module-level generator — the engine has
no rng parameter — and fills the order when the draw is below 0.9.  The
draw is made explicit here as the argument `u`; the wall-clock order id is
not modelled. -/
def place_order (symbol : String) (action_type : ActionType) (quantity : ℤ)
    (price : ℚ) (u : ℚ) : String × ℤ × ℚ :=
  if u < 9/10 then ("filled", quantity, price)
  else ("failed", quantity, price)

/-- `ExecutionEngine._update_market_prices` for one symbol
(src/execution/execution.py lines 111-131): a fresh symbol gets
`random.uniform(10, 1000)`, an existing price moves by
`random.uniform(-0.02, 0.02)` of itself; both draws come from the ambient
module-level generator, made explicit as `u` in [0, 1]. -/
def update_market_price (current : Option ℚ) (u : ℚ) : ℚ :=
  match current with
  | none => 10 + u * (1000 - 10)
  | some p => p + p * (-(2/100) + u * (4/100))

/-- The spec's aggregation example: three BUY signals with confidences
0.8, 0.6, 0.7. -/
def exThreeBuys : List TradingSignal :=
  [{ ticker := "ABC", action := .BUY, confidence := 8/10, agent := "fundamental" },
   { ticker := "ABC", action := .BUY, confidence := 6/10, agent := "technical" },
   { ticker := "ABC", action := .BUY, confidence := 7/10, agent := "sentiment" }]

/-- A BUY/HOLD tie: one BUY and one HOLD signal, both with confidence
0.5. -/
def exTie : List TradingSignal :=
  [{ ticker := "ABC", action := .BUY, confidence := 1/2, agent := "a1" },
   { ticker := "ABC", action := .HOLD, confidence := 1/2, agent := "a2" }]

/-- 30 strictly increasing portfolio values (a doubling each day): every
daily return equals 1, so every percentile of the returns is 1. -/
def geoHistory : List ℚ :=
  [1, 2, 4, 8, 16, 32, 64, 128, 256, 512, 1024, 2048, 4096, 8192, 16384,
   32768, 65536, 131072, 262144, 524288, 1048576, 2097152, 4194304,
   8388608, 16777216, 33554432, 67108864, 134217728, 268435456, 536870912]

/-- A one-day recorded history: the portfolio starts the day worth 100000
and ends it worth 110000, with no recorded trades. -/
def exHistory1 : List SimStep :=
  [{ beforeTotal := 100000, afterTotal := 110000, tradeStatuses := [] }]

/-- The day-1 portfolio of the snapshot-aliasing scenario: a portfolio
seeded with 100,000 dollars in cash after buying 70 shares of AAPL at
100 dollars. -/
def aliasDay1 : Portfolio :=
  (execute_trade { cash := 100000, positions := [] } "AAPL" .BUY 70 100).2

/-- The day-1 `portfolio_after` snapshot as recorded into
`simulation_history`. -/
def aliasSnap : SnapshotMeta := get_portfolio_state aliasDay1

/-- The same portfolio after day 2 refreshes AAPL's `last_price` to 110
(src/simulator/trading_simulator.py line 192). -/
def aliasDay2 : Portfolio := update_last_price aliasDay1 "AAPL" 110

/-! Helper lemmas about the weekend-skip loop. -/

theorem skipWeekend_unfold (e : ℕ) :
    skipWeekend e = if e % 7 > 4 then skipWeekend (e + 1) else e := by
  rw [skipWeekend.eq_def]
  rfl

theorem skipWeekend_closed (d : ℕ) :
    skipWeekend d =
      if d % 7 = 5 then d + 2 else if d % 7 = 6 then d + 1 else d := by
  by_cases h5 : d % 7 = 5
  · rw [skipWeekend_unfold d, if_pos (by omega), skipWeekend_unfold (d + 1),
      if_pos (by omega), skipWeekend_unfold (d + 2), if_neg (by omega),
      if_pos h5]
  · by_cases h6 : d % 7 = 6
    · rw [skipWeekend_unfold d, if_pos (by omega), skipWeekend_unfold (d + 1),
        if_neg (by omega), if_neg h5, if_pos h6]
    · rw [skipWeekend_unfold d, if_neg (by omega), if_neg h5, if_neg h6]

theorem le_skipWeekend (d : ℕ) : d ≤ skipWeekend d := by
  rw [skipWeekend_closed]
  split_ifs <;> omega

theorem skipWeekend_le_add_two (d : ℕ) : skipWeekend d ≤ d + 2 := by
  rw [skipWeekend_closed]
  split_ifs <;> omega

theorem weekday_skipWeekend_le (d : ℕ) : weekday (skipWeekend d) ≤ 4 := by
  rw [skipWeekend_closed]
  unfold weekday
  split_ifs <;> omega

theorem simDates_cons (endD d : ℕ) (h : d ≤ endD) :
    simDates endD d = d :: simDates endD (skipWeekend (d + 1)) := by
  rw [simDates.eq_def, if_pos h]

theorem simDates_nil (endD d : ℕ) (h : ¬ d ≤ endD) : simDates endD d = [] := by
  rw [simDates.eq_def, if_neg h]

theorem simDates_mem (endD : ℕ) :
    ∀ n s, endD + 1 - s ≤ n →
      ∀ d ∈ simDates endD s, d = s ∨ weekday d ≤ 4 := by
  intro n
  induction n with
  | zero =>
    intro s hs d hd
    rw [simDates_nil endD s (by omega)] at hd
    simp at hd
  | succ n ih =>
    intro s hs d hd
    by_cases h : s ≤ endD
    · rw [simDates_cons endD s h] at hd
      rcases List.mem_cons.mp hd with h1 | h2
      · exact Or.inl h1
      · have hstep : s + 1 ≤ skipWeekend (s + 1) := le_skipWeekend (s + 1)
        rcases ih (skipWeekend (s + 1)) (by omega) d h2 with h3 | h4
        · exact Or.inr (h3 ▸ weekday_skipWeekend_le (s + 1))
        · exact Or.inr h4
    · rw [simDates_nil endD s h] at hd
      simp at hd

theorem simDates_length (endD : ℕ) :
    ∀ n s, endD + 1 - s ≤ n →
      (simDates endD s).length ≤ endD + 1 - s := by
  intro n
  induction n with
  | zero =>
    intro s hs
    rw [simDates_nil endD s (by omega)]
    simp
  | succ n ih =>
    intro s hs
    by_cases h : s ≤ endD
    · rw [simDates_cons endD s h]
      have hstep : s + 1 ≤ skipWeekend (s + 1) := le_skipWeekend (s + 1)
      have := ih (skipWeekend (s + 1)) (by omega)
      simp only [List.length_cons]
      omega
    · rw [simDates_nil endD s h]
      simp

/-- C10: for every configuration the backtest loop terminates: each
simulation step strictly increases the current date by at least one
calendar day and by at most three (the weekend skip advances past at most
two consecutive weekend days), the recorded history is bounded by the
number of calendar days in the range, and a run with
`start_date <= end_date` records at least one day before completing. -/
theorem backtest_loop_terminates :
    (∀ d : ℕ, d < skipWeekend (d + 1) ∧ skipWeekend (d + 1) ≤ d + 3) ∧
    (∀ endD start : ℕ, (simDates endD start).length ≤ endD + 1 - start) ∧
    (∀ endD start : ℕ, start ≤ endD → simDates endD start ≠ []) := by
  refine ⟨fun d => ⟨?_, ?_⟩, fun endD start => ?_, fun endD start h => ?_⟩
  · have := le_skipWeekend (d + 1)
    omega
  · have := skipWeekend_le_add_two (d + 1)
    omega
  · exact simDates_length endD (endD + 1 - start) start le_rfl
  · rw [simDates_cons endD start h]
    simp

/-- Witness for C10 at the concrete range 2..4. -/
theorem backtest_loop_terminates_witness :
    2 ≤ 4 ∧ simDates 4 2 ≠ [] :=
  ⟨by norm_num, backtest_loop_terminates.2.2 4 2 (by norm_num)⟩

/-- C4 counterexample: with `start_date` = day 5 (a Saturday: dates are
days since a Monday) and `end_date` = day 9, the first recorded simulated
day is the Saturday itself, not the following Monday (day 7): the weekend
skip only runs when advancing past a completed step, never on the
configured start date. -/
theorem weekend_start_is_simulated :
    simDates 9 5 = [5, 7, 8, 9] ∧ weekday 5 = 5 ∧
    (simDates 9 5).head? = some 5 ∧ ¬ (simDates 9 5).head? = some 7 := by
  have hev : simDates 9 5 = [5, 7, 8, 9] := by
    norm_num [simDates_cons, simDates_nil, skipWeekend_closed]
  refine ⟨hev, rfl, ?_, ?_⟩ <;> rw [hev] <;> simp

/-- C4 amended: the first simulated day is `start_date` itself, even when
it falls on a weekend; every simulated day after the first is a weekday
(Saturdays and Sundays are skipped only when advancing between steps). -/
theorem weekend_skip_from_second_day (endD start : ℕ) :
    (start ≤ endD → (simDates endD start).head? = some start) ∧
    (∀ d ∈ (simDates endD start).tail, weekday d ≤ 4) := by
  constructor
  · intro h
    rw [simDates_cons endD start h]
    rfl
  · intro d hd
    by_cases h : start ≤ endD
    · rw [simDates_cons endD start h] at hd
      simp only [List.tail_cons] at hd
      rcases simDates_mem endD (endD + 1 - skipWeekend (start + 1))
          (skipWeekend (start + 1)) le_rfl d hd with h1 | h2
      · exact h1 ▸ weekday_skipWeekend_le (start + 1)
      · exact h2
    · rw [simDates_nil endD start h] at hd
      simp at hd

/-- Witness for C4's amended statement on the Saturday-start run 5..9:
the first recorded day is the Saturday and the second day (Monday, day 7)
is a weekday. -/
theorem weekend_skip_from_second_day_witness :
    (simDates 9 5).head? = some 5 ∧ weekday 7 ≤ 4 :=
  ⟨(weekend_skip_from_second_day 9 5).1 (by norm_num),
   (weekend_skip_from_second_day 9 5).2 7 (by
     norm_num [simDates_cons, simDates_nil, skipWeekend_closed])⟩

/-- C1: a BUY attempt on a portfolio with nonnegative cash either fails
with reason "Insufficient funds" leaving cash and positions untouched
(when `cash < quantity * price`), or succeeds with
`cash_after = cash - quantity * price ≥ 0`. -/
theorem buy_requires_funds_and_never_negative_cash
    (p : Portfolio) (ticker : String) (quantity price : ℚ)
    (hcash : 0 ≤ p.cash) :
    (p.cash < quantity * price →
      (execute_trade p ticker .BUY quantity price).1.status = "FAILED" ∧
      (execute_trade p ticker .BUY quantity price).1.reason =
        some "Insufficient funds" ∧
      (execute_trade p ticker .BUY quantity price).2 = p) ∧
    ((execute_trade p ticker .BUY quantity price).1.status = "SUCCESS" →
      (execute_trade p ticker .BUY quantity price).2.cash =
        p.cash - quantity * price ∧
      0 ≤ (execute_trade p ticker .BUY quantity price).2.cash) := by
  by_cases h : quantity * price ≤ p.cash
  · constructor
    · intro hlt
      exact absurd h (not_le.mpr hlt)
    · intro _
      have h1 : (execute_trade p ticker .BUY quantity price).2.cash =
          p.cash - quantity * price := by
        simp only [execute_trade, ge_iff_le, if_pos h]
      refine ⟨h1, ?_⟩
      rw [h1]
      simpa only [sub_nonneg] using h
  · have hred : execute_trade p ticker .BUY quantity price =
        ({ ticker := ticker, action := .BUY, quantity := quantity
           price := price, value := quantity * price, status := "FAILED"
           reason := some "Insufficient funds" }, p) := by
      simp only [execute_trade, ge_iff_le, if_neg h]
    constructor
    · intro _
      rw [hred]
      exact ⟨rfl, rfl, rfl⟩
    · intro hs
      rw [hred] at hs
      simp at hs

/-- Witness for C1: a portfolio with 100 dollars cash attempting to buy
5 shares at 30 dollars fails with "Insufficient funds", untouched. -/
theorem buy_requires_funds_witness :
    0 ≤ (Portfolio.mk 100 []).cash ∧
    (Portfolio.mk 100 []).cash < 5 * 30 ∧
    (execute_trade (Portfolio.mk 100 []) "ABC" .BUY 5 30).1.status = "FAILED" ∧
    (execute_trade (Portfolio.mk 100 []) "ABC" .BUY 5 30).1.reason =
      some "Insufficient funds" ∧
    (execute_trade (Portfolio.mk 100 []) "ABC" .BUY 5 30).2 =
      Portfolio.mk 100 [] :=
  ⟨by norm_num, by norm_num,
   ((buy_requires_funds_and_never_negative_cash
     (Portfolio.mk 100 []) "ABC" 5 30 (by norm_num)).1 (by norm_num)).1,
   ((buy_requires_funds_and_never_negative_cash
     (Portfolio.mk 100 []) "ABC" 5 30 (by norm_num)).1 (by norm_num)).2.1,
   ((buy_requires_funds_and_never_negative_cash
     (Portfolio.mk 100 []) "ABC" 5 30 (by norm_num)).1 (by norm_num)).2.2⟩

/-- C2: the snapshot dict stores `positions` by reference, not by value,
so an already-appended snapshot changes when the next day's market-price
refresh mutates the live positions dict.  At snapshot time the recorded
day-1 `portfolio_after` satisfies value conservation, but after day 2
writes `last_price = 110` the same recorded snapshot shows
`cash + Σ quantity * last_price = 100700` against its recorded
`total_value = 100000`. -/
theorem snapshot_mutates_after_append :
    aliasSnap.cash + positionsValue aliasDay1 = aliasSnap.total_value ∧
    positionsValue aliasDay2 ≠ positionsValue aliasDay1 ∧
    aliasSnap.cash + positionsValue aliasDay2 ≠ aliasSnap.total_value ∧
    aliasSnap.cash + positionsValue aliasDay2 = 100700 ∧
    aliasSnap.total_value = 100000 := by
  have h1 : aliasDay1 =
      { cash := 93000
        positions := [("AAPL", { quantity := 70, avg_price := 100, last_price := 100 })] } := by
    norm_num [aliasDay1, execute_trade, lookupPos, setPos]
  have h2 : aliasDay2 =
      { cash := 93000
        positions := [("AAPL", { quantity := 70, avg_price := 100, last_price := 110 })] } := by
    rw [aliasDay2, h1]
    norm_num [update_last_price]
  have h3 : aliasSnap = { cash := 93000, total_value := 100000 } := by
    rw [aliasSnap, h1]
    norm_num [get_portfolio_state, get_portfolio_value]
  rw [h1, h2, h3]
  norm_num [positionsValue]

/-! Helper lemmas about signal aggregation. -/

theorem aggregate_signals_action_eq (s0 : TradingSignal)
    (rest : List TradingSignal) :
    (aggregate_signals (s0 :: rest)).action =
      consensusAction (actionConfidence (s0 :: rest) .BUY)
        (actionConfidence (s0 :: rest) .SELL)
        (actionConfidence (s0 :: rest) .HOLD) := rfl

theorem aggregate_signals_confidence_eq (s0 : TradingSignal)
    (rest : List TradingSignal) :
    (aggregate_signals (s0 :: rest)).confidence =
      (match consensusAction (actionConfidence (s0 :: rest) .BUY)
          (actionConfidence (s0 :: rest) .SELL)
          (actionConfidence (s0 :: rest) .HOLD) with
        | TradeAction.BUY => actionConfidence (s0 :: rest) .BUY
        | TradeAction.SELL => actionConfidence (s0 :: rest) .SELL
        | TradeAction.HOLD => actionConfidence (s0 :: rest) .HOLD) /
        ((s0 :: rest).length : ℚ) := rfl

theorem consensusAction_bucket_eq_max (b se ho : ℚ) :
    (match consensusAction b se ho with
      | TradeAction.BUY => b
      | TradeAction.SELL => se
      | TradeAction.HOLD => ho) = max (max b se) ho := by
  unfold consensusAction
  split_ifs with h1 h2 h3
  · show ho = max (max b se) ho
    rw [max_eq_right h1.le, max_eq_right h2.le]
  · show se = max (max b se) ho
    rw [max_eq_right h1.le, max_eq_left (not_lt.mp h2)]
  · show ho = max (max b se) ho
    rw [max_eq_left (not_lt.mp h1), max_eq_right h3.le]
  · show b = max (max b se) ho
    rw [max_eq_left (not_lt.mp h1), max_eq_left (not_lt.mp h3)]

theorem consensusAction_cases (b se ho : ℚ) :
    consensusAction b se ho =
      (if se ≤ b ∧ ho ≤ b then TradeAction.BUY
       else if ho ≤ se then TradeAction.SELL
       else TradeAction.HOLD) := by
  unfold consensusAction
  split_ifs with h1 h2 h3 h4 h5 h6 h7 <;>
    first
      | rfl
      | (exfalso
         rcases not_and_or.mp (by assumption) with hc | hc <;> push_neg at hc <;>
           linarith)
      | (obtain ⟨hc1, hc2⟩ := by assumption
         linarith)

theorem actionConfidence_perm (l1 l2 : List TradingSignal)
    (h : l1.Perm l2) (a : TradeAction) :
    actionConfidence l1 a = actionConfidence l2 a := by
  unfold actionConfidence
  exact ((h.filter (fun s => decide (s.action = a))).map
    (fun s => s.confidence)).sum_eq

/-- C3: for a non-empty signal list (every signal counting with weight 1),
the consensus action's accumulated bucket is the largest of the three
buckets and the consensus confidence is that bucket divided by the number
of signals; the empty list yields HOLD with confidence 0; and three BUY
signals with confidences 0.8, 0.6, 0.7 yield BUY with confidence 0.7. -/
theorem aggregate_consensus_confidence
    (signals : List TradingSignal) (hne : signals ≠ []) :
    actionConfidence signals (aggregate_signals signals).action =
      max (max (actionConfidence signals .BUY)
        (actionConfidence signals .SELL))
        (actionConfidence signals .HOLD) ∧
    (aggregate_signals signals).confidence =
      actionConfidence signals (aggregate_signals signals).action /
        (signals.length : ℚ) ∧
    (aggregate_signals []).action = .HOLD ∧
    (aggregate_signals []).confidence = 0 ∧
    (aggregate_signals exThreeBuys).action = .BUY ∧
    (aggregate_signals exThreeBuys).confidence = 7/10 := by
  obtain ⟨s0, rest, rfl⟩ := List.exists_cons_of_ne_nil hne
  refine ⟨?_, ?_, rfl, rfl, ?_, ?_⟩
  · rw [aggregate_signals_action_eq]
    have hmax := consensusAction_bucket_eq_max
      (actionConfidence (s0 :: rest) .BUY)
      (actionConfidence (s0 :: rest) .SELL)
      (actionConfidence (s0 :: rest) .HOLD)
    cases hact : consensusAction (actionConfidence (s0 :: rest) .BUY)
        (actionConfidence (s0 :: rest) .SELL)
        (actionConfidence (s0 :: rest) .HOLD) <;>
      rw [hact] at hmax <;> exact hmax
  · rw [aggregate_signals_confidence_eq, aggregate_signals_action_eq]
    cases consensusAction (actionConfidence (s0 :: rest) .BUY)
        (actionConfidence (s0 :: rest) .SELL)
        (actionConfidence (s0 :: rest) .HOLD) <;> rfl
  · simp +decide [exThreeBuys, aggregate_signals, actionConfidence,
      consensusAction]
    norm_num
  · simp +decide [exThreeBuys, aggregate_signals, actionConfidence,
      consensusAction]
    norm_num

/-- Witness for C3 at the three-BUY example. -/
theorem aggregate_consensus_confidence_witness :
    exThreeBuys ≠ [] ∧
    (aggregate_signals exThreeBuys).confidence =
      actionConfidence exThreeBuys (aggregate_signals exThreeBuys).action /
        (exThreeBuys.length : ℚ) :=
  ⟨by simp [exThreeBuys],
   (aggregate_consensus_confidence exThreeBuys (by simp [exThreeBuys])).2.1⟩

/-- C8 counterexample: one BUY and one HOLD signal, both with confidence
0.5, tie at the maximal bucket value, and the consensus action is BUY —
not HOLD as the claim requires. -/
theorem buy_hold_tie_yields_buy :
    actionConfidence exTie .BUY = actionConfidence exTie .HOLD ∧
    actionConfidence exTie .SELL ≤ actionConfidence exTie .BUY ∧
    (aggregate_signals exTie).action = .BUY ∧
    (aggregate_signals exTie).action ≠ .HOLD := by
  simp +decide [exTie, aggregate_signals, actionConfidence, consensusAction]

/-- C8 amended: tie-breaking is deterministic and independent of the order
in which the signals arrive (the buckets live in a dict whose insertion
order is fixed at BUY, SELL, HOLD), but the earliest action in that fixed
order among the maximal buckets wins — so a BUY/HOLD tie yields BUY, not
HOLD. -/
theorem tie_break_insertion_order_deterministic :
    (∀ l1 l2 : List TradingSignal, l1.Perm l2 →
      (aggregate_signals l1).action = (aggregate_signals l2).action ∧
      (aggregate_signals l1).confidence = (aggregate_signals l2).confidence) ∧
    (∀ l : List TradingSignal, l ≠ [] →
      (aggregate_signals l).action =
        (if actionConfidence l .SELL ≤ actionConfidence l .BUY ∧
            actionConfidence l .HOLD ≤ actionConfidence l .BUY then
          TradeAction.BUY
         else if actionConfidence l .HOLD ≤ actionConfidence l .SELL then
          TradeAction.SELL
         else TradeAction.HOLD)) := by
  constructor
  · intro l1 l2 hperm
    rcases l1 with _ | ⟨s1, r1⟩
    · have h2 : l2 = [] := hperm.symm.eq_nil
      subst h2
      exact ⟨rfl, rfl⟩
    · rcases l2 with _ | ⟨s2, r2⟩
      · exact absurd hperm.eq_nil (by simp)
      · have hb := actionConfidence_perm _ _ hperm .BUY
        have hs := actionConfidence_perm _ _ hperm .SELL
        have hh := actionConfidence_perm _ _ hperm .HOLD
        have hlen := hperm.length_eq
        constructor
        · rw [aggregate_signals_action_eq, aggregate_signals_action_eq,
            hb, hs, hh]
        · rw [aggregate_signals_confidence_eq, aggregate_signals_confidence_eq,
            hb, hs, hh, hlen]
  · intro l hne
    obtain ⟨s0, rest, rfl⟩ := List.exists_cons_of_ne_nil hne
    rw [aggregate_signals_action_eq]
    exact consensusAction_cases _ _ _

/-- Witness for C8's amended statement: the BUY/HOLD tie example against
its own reversal, and the explicit tie-break rule evaluated there. -/
theorem tie_break_insertion_order_deterministic_witness :
    (aggregate_signals exTie).action =
      (aggregate_signals
        [{ ticker := "ABC", action := .HOLD, confidence := 1/2, agent := "a2" },
         { ticker := "ABC", action := .BUY, confidence := 1/2, agent := "a1" }]).action ∧
    (aggregate_signals exTie).action =
      (if actionConfidence exTie .SELL ≤ actionConfidence exTie .BUY ∧
          actionConfidence exTie .HOLD ≤ actionConfidence exTie .BUY then
        TradeAction.BUY
       else if actionConfidence exTie .HOLD ≤ actionConfidence exTie .SELL then
        TradeAction.SELL
       else TradeAction.HOLD) :=
  ⟨(tie_break_insertion_order_deterministic.1 exTie _
      (by rw [exTie]; exact List.Perm.swap _ _ _)).1,
   tie_break_insertion_order_deterministic.2 exTie (by simp [exTie])⟩

/-- C5 counterexample: the spec scenario claims 76 shares and cash 92400,
but `_calculate_quantity` computes against the hardcoded portfolio value
of 1,000,000 (not the scenario's initial capital of 100,000) and the
second `PortfolioManager` hardcodes its starting cash to 1,000,000, so
size fraction 0.076 at price 100 yields 760 shares and cash 924,000. -/
theorem scenario_sizing_counterexample :
    calculate_quantity (2/100 + (7/10) * (8/100)) 100 = 760 ∧
    (760 : ℤ) ≠ 76 ∧
    (update_position pmInit "ABC"
      (calculate_quantity (2/100 + (7/10) * (8/100)) 100) 100 .BUY).cash =
      924000 ∧
    (924000 : ℚ) ≠ 92400 := by
  have hq : calculate_quantity (2/100 + (7/10) * (8/100)) 100 = 760 := by
    norm_num [calculate_quantity, pyInt]
  refine ⟨hq, by norm_num, ?_, by norm_num⟩
  rw [hq]
  norm_num [update_position, pmInit, lookupPMPos, setPMPos]

/-- C5 amended: a consensus BUY with confidence 0.7 on a fresh symbol is
sized `0.02 + 0.7 * 0.08 = 0.076` as the claim states, but execution
computes the quantity against the hardcoded 1,000,000-dollar portfolio
value, producing a 760-share order; applying it to the second manager's
hardcoded 1,000,000-dollar state leaves cash 924,000 and the position
holding quantity 760 with recorded value 76,000 (an effective average
cost of 100 per share). -/
theorem scenario_sizing_amended :
    determine_action_for_symbol [] 10 "ABC" .BUY (7/10) 1000000 =
      (ActionType.BUY, 19/250) ∧
    (19/250 : ℚ) = 2/100 + (7/10) * (8/100) ∧
    calculate_quantity (19/250) 100 = 760 ∧
    update_position pmInit "ABC" 760 100 .BUY =
      { cash := 924000
        positions := [("ABC", { quantity := 760, value := 76000 })] } := by
  refine ⟨?_, by norm_num, ?_, ?_⟩
  · norm_num [determine_action_for_symbol, lookupPMPos]
  · norm_num [calculate_quantity, pyInt]
  · norm_num [update_position, pmInit, lookupPMPos, setPMPos]

/-- C6 counterexample: thirty strictly rising portfolio values give daily
returns all equal to 1, so the 5-percent percentile of the returns is 1,
`var = -1`, and the code returns `min(-1 * 10, 1.0) = -10`: the risk
estimate is not in [0, 1] and is not the negative percentile itself. -/
theorem risk_estimate_escapes_unit_interval :
    calculate_portfolio_risk geoHistory (19/20) = -10 ∧
    ¬ (0 ≤ calculate_portfolio_risk geoHistory (19/20)) ∧
    percentile (daily_returns geoHistory) (100 * (1 - 19/20)) = 1 := by
  have hret : daily_returns geoHistory = List.replicate 29 1 := by
    norm_num [daily_returns, geoHistory, List.replicate]
  have hsort : sortRats (List.replicate 29 1) = List.replicate 29 1 := by
    norm_num [sortRats, insertSorted, List.replicate]
  have hpct : percentile (daily_returns geoHistory) (100 * (1 - 19/20)) = 1 := by
    rw [percentile, hret, hsort]
    norm_num [List.replicate, Int.floor_eq_iff]
  have hlen : ¬ geoHistory.length < 30 := by norm_num [geoHistory]
  have hcalc : calculate_portfolio_risk geoHistory (19/20) = -10 := by
    unfold calculate_portfolio_risk
    rw [if_neg hlen]
    show min (-(percentile (daily_returns geoHistory)
      (100 * (1 - 19/20))) * 10) 1 = -10
    rw [hpct]
    norm_num
  exact ⟨hcalc, by rw [hcalc]; norm_num, hpct⟩

/-- C6 amended: with fewer than 30 recorded values the risk estimate is
the fixed default 0.1; otherwise it is `min(10 * (-(percentile of the
returns at 100*(1 - var_confidence))), 1)` — ten times the negative
percentile, clamped only from above — so the estimate is always at most 1
but can be negative. -/
theorem risk_estimate_clamped_only_above (history : List ℚ)
    (var_confidence : ℚ) :
    calculate_portfolio_risk history var_confidence ≤ 1 ∧
    (history.length < 30 →
      calculate_portfolio_risk history var_confidence = 1/10) ∧
    (¬ history.length < 30 →
      calculate_portfolio_risk history var_confidence =
        min (10 * -(percentile (daily_returns history)
          (100 * (1 - var_confidence)))) 1) := by
  unfold calculate_portfolio_risk
  by_cases h : history.length < 30
  · rw [if_pos h]
    refine ⟨by norm_num, fun _ => rfl, fun hc => absurd h hc⟩
  · rw [if_neg h]
    refine ⟨min_le_right _ _, fun hc => absurd hc h, fun _ => ?_⟩
    show min (-(percentile (daily_returns history)
        (100 * (1 - var_confidence))) * 10) 1 =
      min (10 * -(percentile (daily_returns history)
        (100 * (1 - var_confidence)))) 1
    rw [mul_comm]

/-- Witness for C6's amended statement on a two-entry history. -/
theorem risk_estimate_clamped_only_above_witness :
    calculate_portfolio_risk [100, 101] (19/20) ≤ 1 ∧
    calculate_portfolio_risk [100, 101] (19/20) = 1/10 :=
  ⟨(risk_estimate_clamped_only_above [100, 101] (19/20)).1,
   (risk_estimate_clamped_only_above [100, 101] (19/20)).2.1 (by norm_num)⟩

/-- C9 counterexample: two order placements with the same symbol, side,
quantity and price but different ambient `random.random()` draws produce
different statuses, so the execution result is not a function of the
order's inputs alone — the engine reads the module-level global generator
and takes no injectable seed. -/
theorem execution_reads_ambient_randomness :
    place_order "ABC" .BUY 10 100 (1/2) ≠ place_order "ABC" .BUY 10 100 (19/20) ∧
    (place_order "ABC" .BUY 10 100 (1/2)).1 = "filled" ∧
    (place_order "ABC" .BUY 10 100 (19/20)).1 = "failed" := by
  refine ⟨?_, ?_, ?_⟩ <;> norm_num [place_order] <;> decide

/-- C9 amended: order execution is deterministic given its inputs together
with the ambient draw — the result depends on the draw only through the
0.9 rejection threshold, and the status is "filled" exactly when the
ambient draw is below 0.9 — but the draw comes from the module-level
`random`, not from an injected seedable source, so equal inputs alone do
not determine the order. -/
theorem execution_deterministic_given_ambient_draw
    (symbol : String) (a : ActionType) (q : ℤ) (price : ℚ) (u v : ℚ)
    (h : u < 9/10 ↔ v < 9/10) :
    place_order symbol a q price u = place_order symbol a q price v ∧
    ((place_order symbol a q price u).1 = "filled" ↔ u < 9/10) := by
  unfold place_order
  constructor
  · by_cases hu : u < 9/10
    · rw [if_pos hu, if_pos (h.mp hu)]
    · rw [if_neg hu, if_neg (fun hv => hu (h.mpr hv))]
  · by_cases hu : u < 9/10
    · rw [if_pos hu]
      simp [hu]
    · rw [if_neg hu]
      simp [hu]

/-- Witness for C9's amended statement with two draws on the same side of
the rejection threshold. -/
theorem execution_deterministic_witness :
    ((1:ℚ)/4 < 9/10 ↔ (1:ℚ)/2 < 9/10) ∧
    place_order "ABC" .BUY 10 100 (1/4) = place_order "ABC" .BUY 10 100 (1/2) ∧
    ((place_order "ABC" .BUY 10 100 (1/4)).1 = "filled" ↔ (1:ℚ)/4 < 9/10) :=
  ⟨by norm_num,
   (execution_deterministic_given_ambient_draw "ABC" .BUY 10 100 (1/4) (1/2)
     (by norm_num)).1,
   (execution_deterministic_given_ambient_draw "ABC" .BUY 10 100 (1/4) (1/2)
     (by norm_num)).2⟩

/-! Helper lemmas about the performance metrics. -/

theorem pyRound2_zero : pyRound2 0 = 0 := by
  norm_num [pyRound2]

theorem pyRound2R_zero : pyRound2R 0 = 0 := by
  norm_num [pyRound2R]

theorem sim_daily_returns_short (history : List SimStep)
    (hlen : history.length < 2) : sim_daily_returns history = [] := by
  rcases history with _ | ⟨a, _ | ⟨b, t⟩⟩
  · rfl
  · rfl
  · simp only [List.length_cons] at hlen
    omega

theorem sim_excess_returns_of_nil (history : List SimStep)
    (h : sim_daily_returns history = []) :
    sim_excess_returns history = [] := by
  unfold sim_excess_returns
  rw [h]
  rfl

/-- C7 amended: the summary metrics follow the spec's formulas only after
scaling to percent and rounding half-to-even at two decimals:
`percentage_return = round(100*(final/initial - 1), 2)`; the Sharpe ratio
is 0 whenever the history has fewer than 2 points or the standard
deviation of the excess returns is 0, and otherwise is
`round(mean(excess)/std(excess) * sqrt(252), 2)` (population standard
deviation, daily risk-free rate `1.02^(1/252) - 1`); the trade success
rate is 0 with no recorded orders and otherwise
`round(100 * successful/total, 2)` counting status "SUCCESS";
`volatility = round(100 * std(daily_returns), 2)` when returns exist; and
the summary is a pure function of the history, so recomputing it yields
identical metrics. -/
theorem performance_metrics_code_formulas (history : List SimStep) :
    (sim_percentage_return history =
      pyRound2 (100 * (sim_final_value history /
        sim_initial_value history - 1))) ∧
    (history.length < 2 → sim_sharpe_ratio history = 0) ∧
    (npStdR (sim_excess_returns history) = 0 →
      sim_sharpe_ratio history = 0) ∧
    (sim_total_trades history = 0 → sim_success_rate history = 0) ∧
    (sim_total_trades history ≠ 0 → sim_success_rate history =
      pyRound2 (100 * ((sim_successful_trades history : ℚ) /
        (sim_total_trades history : ℚ)))) ∧
    (sim_daily_returns history ≠ [] →
      sim_volatility history =
        pyRound2R (100 * npStd (sim_daily_returns history))) ∧
    (sim_excess_returns history ≠ [] →
      0 < npStdR (sim_excess_returns history) →
      sim_sharpe_ratio history =
        pyRound2R ((listMeanR (sim_excess_returns history) /
          npStdR (sim_excess_returns history)) * Real.sqrt 252)) ∧
    ((sim_percentage_return history, sim_success_rate history) =
      (sim_percentage_return history, sim_success_rate history)) ∧
    ((sim_volatility history, sim_sharpe_ratio history) =
      (sim_volatility history, sim_sharpe_ratio history)) := by
  refine ⟨?_, ?_, ?_, ?_, ?_, ?_, ?_, rfl, rfl⟩
  · unfold sim_percentage_return
    rw [mul_comm (sim_final_value history / sim_initial_value history - 1) 100]
  · intro hlen
    have hex : sim_excess_returns history = [] :=
      sim_excess_returns_of_nil history (sim_daily_returns_short history hlen)
    unfold sim_sharpe_ratio
    rw [if_neg (fun hc => hc.1 hex)]
    exact pyRound2R_zero
  · intro hstd
    unfold sim_sharpe_ratio
    rw [if_neg (fun hc => absurd hc.2 (by rw [hstd]; exact lt_irrefl 0))]
    exact pyRound2R_zero
  · intro htot
    unfold sim_success_rate
    rw [if_neg (fun hc => hc htot)]
    exact pyRound2_zero
  · intro htot
    unfold sim_success_rate
    rw [if_pos htot, mul_comm]
  · intro hne
    unfold sim_volatility
    rw [if_pos hne, mul_comm]
  · intro hne hpos
    unfold sim_sharpe_ratio
    rw [if_pos ⟨hne, hpos⟩]

/-- Witness for C7's amended statement at the one-day history. -/
theorem performance_metrics_code_formulas_witness :
    sim_percentage_return exHistory1 =
      pyRound2 (100 * (sim_final_value exHistory1 /
        sim_initial_value exHistory1 - 1)) ∧
    exHistory1.length < 2 ∧
    sim_sharpe_ratio exHistory1 = 0 ∧
    sim_total_trades exHistory1 = 0 ∧
    sim_success_rate exHistory1 = 0 :=
  ⟨(performance_metrics_code_formulas exHistory1).1,
   by norm_num [exHistory1],
   (performance_metrics_code_formulas exHistory1).2.1
     (by norm_num [exHistory1]),
   by norm_num [exHistory1, sim_total_trades],
   (performance_metrics_code_formulas exHistory1).2.2.2.1
     (by norm_num [exHistory1, sim_total_trades])⟩

/-- C7 counterexample: on a history going from 100000 to 110000 the
recorded `percentage_return` is 10 (a rounded percentage), not the ratio
`final/initial - 1 = 0.1` the claim asserts. -/
theorem performance_metrics_percent_counterexample :
    sim_percentage_return exHistory1 = 10 ∧
    sim_final_value exHistory1 / sim_initial_value exHistory1 - 1 = 1/10 ∧
    (10 : ℚ) ≠ 1/10 := by
  refine ⟨?_, ?_, by norm_num⟩
  · norm_num [exHistory1, sim_percentage_return, sim_final_value,
      sim_initial_value, pyRound2]
  · norm_num [exHistory1, sim_final_value, sim_initial_value]
